import Mathlib

/-!
Verification of the lazy-once-cell repository: a hand-rolled lazy static
(a one-time-execution gate guarding an optional storage slot) used to
compile an email-matching regular expression exactly once, plus benchmark
variants built on equivalent lazy-initialization primitives.

The regular-expression compiler and matcher are external collaborators of
the repository (the regex crate); the spec treats them as opaque pattern
compiling / match testing functions.  They are modelled here by a small
regular-expression abstract syntax together with a standard
derivative-based matcher and a recursive-descent pattern reader covering
the constructs the repository pattern uses.
-/

set_option maxRecDepth 100000

namespace Spec2Proof

/-- One item of a bracket character class: a single character or an
inclusive character range. -/
inductive ClassItem where
| single (c : Char)
| range (lo hi : Char)
deriving DecidableEq, Repr

/-- Whether a character is covered by a class item. -/
def ClassItem.covers (c : Char) : ClassItem → Bool
| .single d => c == d
| .range lo hi => decide (lo.toNat ≤ c.toNat) && decide (c.toNat ≤ hi.toNat)

/-- Modelled from the spec: the matchable object produced by the external
pattern-compiling collaborator.  Abstract syntax of the regular-expression
fragment the repository pattern uses: character classes, concatenation,
alternation and Kleene star (with plus and option desugared). -/
inductive Regex where
| emptyset
| epsilon
| cls (neg : Bool) (items : List ClassItem)
| cat (a b : Regex)
| alt (a b : Regex)
| star (a : Regex)
deriving DecidableEq, Repr

/-- Whether a character matches a (possibly negated) character class. -/
def clsCovers (neg : Bool) (items : List ClassItem) (c : Char) : Bool :=
  neg != items.any (fun i => ClassItem.covers c i)

/-- Whether a regular expression accepts the empty word. -/
def Regex.nullable : Regex → Bool
| .emptyset => false
| .epsilon => true
| .cls _ _ => false
| .cat a b => a.nullable && b.nullable
| .alt a b => a.nullable || b.nullable
| .star _ => true

/-- Smart concatenation: absorbs the empty language and drops units. -/
def scat : Regex → Regex → Regex
| .emptyset, _ => .emptyset
| .epsilon, b => b
| a, b =>
  match b with
  | .emptyset => .emptyset
  | .epsilon => a
  | _ => .cat a b

/-- Smart alternation: drops the empty language and duplicate branches. -/
def salt : Regex → Regex → Regex
| .emptyset, b => b
| a, b =>
  match b with
  | .emptyset => a
  | _ => if a = b then a else .alt a b

/-- Brzozowski derivative of a regular expression by one character. -/
def derivC (c : Char) : Regex → Regex
| .emptyset => .emptyset
| .epsilon => .emptyset
| .cls neg items => if clsCovers neg items c then .epsilon else .emptyset
| .cat a b =>
  if a.nullable then salt (scat (derivC c a) b) (derivC c b)
  else scat (derivC c a) b
| .alt a b => salt (derivC c a) (derivC c b)
| .star a => scat (derivC c a) (.star a)

/-- Whether some (possibly empty) initial segment of the character list
matches the regular expression. -/
def matchesHere (r : Regex) : List Char → Bool
| [] => r.nullable
| c :: cs => r.nullable || matchesHere (derivC c r) cs

/-- Whether some substring of the character list (an unanchored search,
as the match-testing collaborator performs) matches the expression. -/
def searchIn (r : Regex) : List Char → Bool
| [] => matchesHere r []
| c :: cs => matchesHere r (c :: cs) || searchIn r cs

/-- Modelled from the spec: the external match-testing collaborator
on a compiled pattern, a boolean unanchored match on a string. -/
def Regex.isMatch (r : Regex) (s : String) : Bool :=
  searchIn r s.toList

/-- Characters with a meta meaning outside character classes in the
pattern syntax (including the brace pair, given by code point). -/
def isMeta (c : Char) : Bool :=
  c == '\\' || c == '(' || c == ')' || c == '[' || c == ']' || c == '|' ||
  c == '*' || c == '+' || c == '?' || c == '.' || c == '^' || c == '$' ||
  c.toNat == 123 || c.toNat == 125

/-- Reads the items of a bracket character class up to the closing
bracket: ranges, backslash escapes, and a trailing hyphen read literally. -/
def readClassItems (fuel : Nat) (cs : List Char) :
    Option (List ClassItem × List Char) :=
  match fuel, cs with
  | _, [] => none
  | _, ']' :: rest => some ([], rest)
  | 0, _ => none
  | fuel + 1, '\\' :: d :: rest =>
    match readClassItems fuel rest with
    | some (items, rest2) => some (ClassItem.single d :: items, rest2)
    | none => none
  | fuel + 1, a :: '-' :: b :: rest =>
    if b == ']' then
      match readClassItems fuel (b :: rest) with
      | some (items, rest2) =>
        some (ClassItem.single a :: ClassItem.single '-' :: items, rest2)
      | none => none
    else
      match readClassItems fuel rest with
      | some (items, rest2) => some (ClassItem.range a b :: items, rest2)
      | none => none
  | fuel + 1, a :: rest =>
    match readClassItems fuel rest with
    | some (items, rest2) => some (ClassItem.single a :: items, rest2)
    | none => none

mutual

/-- Reads an alternation: concatenations separated by vertical bars. -/
def readAlt (fuel : Nat) (cs : List Char) : Option (Regex × List Char) :=
  match fuel with
  | 0 => none
  | fuel + 1 =>
    match readCat fuel cs with
    | none => none
    | some (r, rest) =>
      match rest with
      | '|' :: rest2 =>
        match readAlt fuel rest2 with
        | some (r2, rest3) => some (Regex.alt r r2, rest3)
        | none => none
      | _ => some (r, rest)

/-- Reads a concatenation of repeated atoms, stopping at a vertical bar,
a closing parenthesis, or the end of the pattern. -/
def readCat (fuel : Nat) (cs : List Char) : Option (Regex × List Char) :=
  match fuel with
  | 0 => none
  | fuel + 1 =>
    match cs with
    | [] => some (Regex.epsilon, [])
    | ')' :: _ => some (Regex.epsilon, cs)
    | '|' :: _ => some (Regex.epsilon, cs)
    | _ =>
      match readRepeated fuel cs with
      | none => none
      | some (r, rest) =>
        match readCat fuel rest with
        | some (r2, rest2) => some (Regex.cat r r2, rest2)
        | none => none

/-- Reads one atom followed by any run of star, plus or option marks. -/
def readRepeated (fuel : Nat) (cs : List Char) : Option (Regex × List Char) :=
  match fuel with
  | 0 => none
  | fuel + 1 =>
    match readAtom fuel cs with
    | none => none
    | some (r, rest) => readSuffixes fuel r rest

/-- Applies trailing star, plus and option marks to an already-read atom. -/
def readSuffixes (fuel : Nat) (r : Regex) (cs : List Char) :
    Option (Regex × List Char) :=
  match fuel with
  | 0 => none
  | fuel + 1 =>
    match cs with
    | '*' :: rest => readSuffixes fuel (Regex.star r) rest
    | '+' :: rest => readSuffixes fuel (Regex.cat r (Regex.star r)) rest
    | '?' :: rest => readSuffixes fuel (Regex.alt r Regex.epsilon) rest
    | _ => some (r, cs)

/-- Reads a single atom: a group (capturing or not), a bracket class, a
backslash escape read literally, a dot, or a literal character. -/
def readAtom (fuel : Nat) (cs : List Char) : Option (Regex × List Char) :=
  match fuel with
  | 0 => none
  | fuel + 1 =>
    match cs with
    | [] => none
    | '(' :: '?' :: ':' :: rest =>
      match readAlt fuel rest with
      | some (r, ')' :: rest2) => some (r, rest2)
      | _ => none
    | '(' :: rest =>
      match readAlt fuel rest with
      | some (r, ')' :: rest2) => some (r, rest2)
      | _ => none
    | '[' :: '^' :: rest =>
      match readClassItems fuel rest with
      | some (items, rest2) => some (Regex.cls true items, rest2)
      | none => none
    | '[' :: rest =>
      match readClassItems fuel rest with
      | some (items, rest2) => some (Regex.cls false items, rest2)
      | none => none
    | '\\' :: d :: rest => some (Regex.cls false [ClassItem.single d], rest)
    | '.' :: rest =>
      some (Regex.cls true [ClassItem.single (Char.ofNat 10)], rest)
    | c :: rest =>
      if isMeta c then none
      else some (Regex.cls false [ClassItem.single c], rest)

end

/-- Modelled from the spec: the external pattern-compiling collaborator
turning a textual pattern into a matchable object, or failing on a
pattern it cannot read. -/
def compile (s : String) : Option Regex :=
  match readAlt (4 * (s.toList.length + 1)) s.toList with
  | some (r, []) => some r
  | _ => none

/-- The repository test pattern (an RFC-5322-like email matcher), given
by code points because it contains brace, backtick and quote characters.
It is the string bound to the constant LONG_REGEX in src/main.rs (and
identically in benches/lib.rs). -/
def LONG_REGEX : String :=
  String.mk (List.map Char.ofNat
    [91, 97, 45, 122, 48, 45, 57, 33, 35, 36, 37, 38, 39, 42, 43, 47, 61,
     63, 94, 95, 96, 123, 124, 125, 126, 45, 93, 43, 40, 63, 58, 92, 46,
     91, 97, 45, 122, 48, 45, 57, 33, 35, 36, 37, 38, 39, 42, 43, 47, 61,
     63, 94, 95, 96, 123, 124, 125, 126, 45, 93, 43, 41, 42, 64, 40, 63,
     58, 91, 97, 45, 122, 48, 45, 57, 93, 40, 63, 58, 91, 97, 45, 122, 48,
     45, 57, 45, 93, 42, 91, 97, 45, 122, 48, 45, 57, 93, 41, 63, 92, 46,
     41, 43, 91, 97, 45, 122, 48, 45, 57, 93, 40, 63, 58, 91, 97, 45, 122,
     48, 45, 57, 45, 93, 42, 91, 97, 45, 122, 48, 45, 57, 93, 41, 63])

/-- The valid test email from src/main.rs. -/
def TEST_EMAIL : String := "name@example.com"

/-- The invalid test input from src/main.rs. -/
def TEST_NOT_EMAIL : String := "Hello world!"

/-- The state of the one-time-execution gate (std::sync::Once): not yet
started, initializer running, completed, or poisoned by a panicking
initializer. -/
inductive Gate where
| notStarted
| running
| done
| poisoned
deriving DecidableEq, Repr

/-- The state of the hand-rolled lazy cell of src/main.rs: the optional
storage slot (the Cell of Lazy), the gate (the Once of Lazy), a ghost
count of initializer invocations, and the lines printed so far. -/
structure LazyState (T : Type) where
  storage : Option T
  gate : Gate
  initRuns : Nat
  output : List String
deriving DecidableEq

/-- A cell as it exists at process start: empty slot, untouched gate. -/
def freshState (T : Type) : LazyState T := ⟨none, Gate.notStarted, 0, []⟩

/-- The line printed by deref on every call in src/main.rs. -/
def DEREF_LINE : String := "Derefencing CompiledRegex"

/-- The line printed inside the call_once closure in src/main.rs. -/
def INIT_LINE : String := "CompiledRegex initialized"

/-- The diagnostic of the deref panic branch in src/main.rs. -/
def INVARIANT_MSG : String :=
  "attempted to dereference an uninitialized lazy static. This is a bug"

/-- Panics a deref can surface, modelled as error values: the propagated
initializer panic, the panic call_once raises on a poisoned gate, a
reentrant call blocking forever, and the empty-slot-after-done
diagnostic panic. -/
inductive DerefErr where
| initFailure
| poisonedGate
| blockedOnRunning
| invariantViolation (msg : String)
deriving DecidableEq

/-- std::sync::Once::call_once on the cell of src/main.rs, with the
closure modelled by its initializer outcome: some value (the closure
stores it and prints the initialized line) or none (the closure panics,
poisoning the gate).  A done gate skips the closure; a poisoned gate
panics; a running gate means reentrancy, which blocks forever. -/
def callOnce {T : Type} (init : Option T) (s : LazyState T) :
    LazyState T × Option DerefErr :=
  match s.gate with
  | Gate.done => (s, none)
  | Gate.poisoned => (s, some DerefErr.poisonedGate)
  | Gate.running => (s, some DerefErr.blockedOnRunning)
  | Gate.notStarted =>
    match init with
    | some v =>
      (⟨some v, Gate.done, s.initRuns + 1, s.output ++ [INIT_LINE]⟩, none)
    | none =>
      (⟨s.storage, Gate.poisoned, s.initRuns + 1, s.output⟩,
       some DerefErr.initFailure)

/-- The unsafe slot read at the end of deref in src/main.rs: Some yields
the value, None hits the diagnostic panic branch. -/
def readSlot {T : Type} (s : LazyState T) : Except DerefErr T :=
  match s.storage with
  | some x => Except.ok x
  | none => Except.error (DerefErr.invariantViolation INVARIANT_MSG)

/-- Deref::deref of CompiledRegex in src/main.rs: print the deref line,
run call_once, then read the slot (propagating a call_once panic). -/
def deref {T : Type} (init : Option T) (s : LazyState T) :
    LazyState T × Except DerefErr T :=
  match callOnce init ⟨s.storage, s.gate, s.initRuns, s.output ++ [DEREF_LINE]⟩ with
  | (s2, some e) => (s2, Except.error e)
  | (s2, none) => (s2, readSlot s2)

/-- The initializer of COMPILED_REGEX: compile LONG_REGEX, where a
compilation failure would be an unwrap panic. -/
def regexInit : Option Regex := compile LONG_REGEX

/-- The cell state after the first deref performed by main. -/
def mainState1 : LazyState Regex := (deref regexInit (freshState Regex)).1

/-- The cell state after both derefs performed by main. -/
def mainState2 : LazyState Regex := (deref regexInit mainState1).1

/-- The first match printed by main: deref then is_match on TEST_EMAIL. -/
def mainFirstMatch : Except DerefErr Bool :=
  ((deref regexInit (freshState Regex)).2).map (fun r => r.isMatch TEST_EMAIL)

/-- The second match printed by main: deref the already-initialized cell
then is_match on TEST_NOT_EMAIL. -/
def mainSecondMatch : Except DerefErr Bool :=
  ((deref regexInit mainState1).2).map (fun r => r.isMatch TEST_NOT_EMAIL)

/-- The compiled repository pattern (compile LONG_REGEX succeeds, so the
default of getD is never used). -/
def regexValue : Regex := (compile LONG_REGEX).getD Regex.emptyset

/-- once_cell::sync::Lazy deref (used by COMPILED_REGEX_ONCE_CELL in
benches/lib.rs): get-or-initialize on the same cell data, without the
hand-rolled trace lines of src/main.rs. -/
def onceCellForce {T : Type} (init : Option T) (s : LazyState T) :
    LazyState T × Except DerefErr T :=
  match s.gate with
  | Gate.done => (s, readSlot s)
  | Gate.poisoned => (s, Except.error DerefErr.poisonedGate)
  | Gate.running => (s, Except.error DerefErr.blockedOnRunning)
  | Gate.notStarted =>
    match init with
    | some v => (⟨some v, Gate.done, s.initRuns + 1, s.output⟩, Except.ok v)
    | none =>
      (⟨s.storage, Gate.poisoned, s.initRuns + 1, s.output⟩,
       Except.error DerefErr.initFailure)

/-- Strategy 1 (benches/lib.rs COMPILED_REGEX, lazy_static): deref the
module-level lazy cell and run is_match. -/
def compiledRegexMatch (s : String) : Except DerefErr Bool :=
  ((deref regexInit (freshState Regex)).2).map (fun r => r.isMatch s)

/-- Strategy 2 (benches/lib.rs COMPILED_REGEX_ONCE_CELL, once_cell):
force the once-cell lazy value and run is_match. -/
def onceCellMatch (s : String) : Except DerefErr Bool :=
  ((onceCellForce regexInit (freshState Regex)).2).map (fun r => r.isMatch s)

/-- Strategy 3 (benches/external_mod/mod.rs lazy_static_external): deref
the lazy cell COMPILED_REGEX_OUTER of the external module and run
is_match. -/
def lazyStaticExternal (s : String) : Except DerefErr Bool :=
  ((deref regexInit (freshState Regex)).2).map (fun r => r.isMatch s)

/-- Strategy 4 (benches/lib.rs mod inner, lazy_static_local): deref the
lazy cell COMPILED_REGEX_INNER of the inner module and run is_match. -/
def lazyStaticLocal (s : String) : Except DerefErr Bool :=
  ((deref regexInit (freshState Regex)).2).map (fun r => r.isMatch s)

/-- A caller thread of the concurrent model, identified by where it is in
Deref::deref: not yet at the gate, running the initializer, past the gate
and about to read the slot, finished with a value, or unwinding from a
panic. -/
inductive TState (T : Type) where
| start
| initializing
| reading
| finished (v : T)
| panicked (e : DerefErr)
deriving DecidableEq

/-- A configuration of the concurrent model: the shared cell (slot, gate,
ghost initializer-run count) and the list of caller threads. -/
structure Cfg (T : Type) where
  storage : Option T
  gate : Gate
  initRuns : Nat
  threads : List (TState T)
deriving DecidableEq

/-- The initial configuration: fresh cell, n callers about to deref. -/
def initCfg (T : Type) (n : Nat) : Cfg T :=
  ⟨none, Gate.notStarted, 0, List.replicate n TState.start⟩

/-- Interleaved small-step semantics of n threads each running
Deref::deref on the shared cell.  The winning thread flips the gate to
running and runs the initializer; a thread arriving at a running gate has
no enabled step (it blocks inside call_once); arriving at a done gate is
the fast path; arriving at a poisoned gate panics; a thread past the gate
reads the slot, panicking on an empty slot. -/
inductive Step {T : Type} (init : Option T) : Cfg T → Cfg T → Prop where
| beginInit (c : Cfg T) (n : Nat)
    (ht : c.threads[n]? = some TState.start)
    (hg : c.gate = Gate.notStarted) :
    Step init c ⟨c.storage, Gate.running, c.initRuns + 1,
      c.threads.set n TState.initializing⟩
| initOk (c : Cfg T) (n : Nat) (v : T)
    (ht : c.threads[n]? = some TState.initializing)
    (hv : init = some v) :
    Step init c ⟨some v, Gate.done, c.initRuns,
      c.threads.set n TState.reading⟩
| initPanic (c : Cfg T) (n : Nat)
    (ht : c.threads[n]? = some TState.initializing)
    (hv : init = none) :
    Step init c ⟨c.storage, Gate.poisoned, c.initRuns,
      c.threads.set n (TState.panicked DerefErr.initFailure)⟩
| fastPath (c : Cfg T) (n : Nat)
    (ht : c.threads[n]? = some TState.start)
    (hg : c.gate = Gate.done) :
    Step init c ⟨c.storage, c.gate, c.initRuns,
      c.threads.set n TState.reading⟩
| poisonedEntry (c : Cfg T) (n : Nat)
    (ht : c.threads[n]? = some TState.start)
    (hg : c.gate = Gate.poisoned) :
    Step init c ⟨c.storage, c.gate, c.initRuns,
      c.threads.set n (TState.panicked DerefErr.poisonedGate)⟩
| readOk (c : Cfg T) (n : Nat) (v : T)
    (ht : c.threads[n]? = some TState.reading)
    (hs : c.storage = some v) :
    Step init c ⟨c.storage, c.gate, c.initRuns,
      c.threads.set n (TState.finished v)⟩
| readNone (c : Cfg T) (n : Nat)
    (ht : c.threads[n]? = some TState.reading)
    (hs : c.storage = none) :
    Step init c ⟨c.storage, c.gate, c.initRuns,
      c.threads.set n (TState.panicked
        (DerefErr.invariantViolation INVARIANT_MSG))⟩

/-- A configuration reachable from the n-thread initial one. -/
def Reach {T : Type} (init : Option T) (n : Nat) (c : Cfg T) : Prop :=
  Relation.ReflTransGen (Step init) (initCfg T n) c

/-- The global invariant of the concurrent model, tying the gate state to
the slot, the ghost initializer-run count and the thread states. -/
def Inv {T : Type} (init : Option T) (c : Cfg T) : Prop :=
  (c.gate = Gate.notStarted → c.storage = none ∧ c.initRuns = 0 ∧
    ∀ (i : Nat) (t : TState T), c.threads[i]? = some t →
      t = TState.start) ∧
  (c.gate = Gate.running → c.initRuns = 1 ∧ c.storage = none ∧
    ∃ k, c.threads[k]? = some (TState.initializing : TState T) ∧
      ∀ (i : Nat) (t : TState T), c.threads[i]? = some t → i ≠ k →
        t = TState.start) ∧
  (c.gate = Gate.done → c.initRuns = 1 ∧
    ∃ v, init = some v ∧ c.storage = some v) ∧
  (c.gate = Gate.poisoned → c.initRuns = 1 ∧ init = none ∧
    c.storage = none) ∧
  (∀ (i : Nat),
    c.threads[i]? = some (TState.initializing : TState T) →
    c.gate = Gate.running) ∧
  (∀ (i : Nat),
    c.threads[i]? = some (TState.reading : TState T) →
    c.gate = Gate.done) ∧
  (∀ (i : Nat) (v : T), c.threads[i]? = some (TState.finished v) →
    init = some v ∧ c.gate = Gate.done) ∧
  (∀ (i : Nat) (e : DerefErr), c.threads[i]? = some (TState.panicked e) →
    (e = DerefErr.initFailure ∨ e = DerefErr.poisonedGate) ∧ init = none)

/-- Reading an updated thread list finds either the new state at the
updated index or an untouched old state elsewhere. -/
theorem set_lookup {α : Type} {l : List α} {n i : Nat} {x t : α}
    (h : (l.set n x)[i]? = some t) :
    (i = n ∧ t = x) ∨ (i ≠ n ∧ l[i]? = some t) := by
  by_cases hin : i = n
  · subst hin
    left
    refine ⟨rfl, ?_⟩
    have hlen : i < l.length := by
      have h2 := (List.getElem?_eq_some_iff.mp h).1
      simpa [List.length_set] using h2
    rw [List.getElem?_set_self hlen] at h
    exact (Option.some.inj h).symm
  · right
    refine ⟨hin, ?_⟩
    rwa [List.getElem?_set_ne (fun he => hin he.symm)] at h

/-- A successful lookup index is within the list. -/
theorem lookup_lt {α : Type} {l : List α} {n : Nat} {t : α}
    (h : l[n]? = some t) : n < l.length :=
  (List.getElem?_eq_some_iff.mp h).1

/-- The invariant holds in every initial configuration. -/
theorem inv_init {T : Type} (init : Option T) (n : Nat) :
    Inv init (initCfg T n) := by
  refine ⟨fun _ => ⟨rfl, rfl, fun i t ht => ?_⟩,
    fun hg => by simp [initCfg] at hg,
    fun hg => by simp [initCfg] at hg,
    fun hg => by simp [initCfg] at hg,
    fun i ht => ?_, fun i ht => ?_, fun i v ht => ?_, fun i e ht => ?_⟩ <;>
    simp only [initCfg, List.getElem?_replicate] at ht <;>
    split at ht <;> simp_all

/-- One step preserves the invariant. -/
theorem inv_step {T : Type} {init : Option T} {c c2 : Cfg T}
    (hInv : Inv init c) (hs : Step init c c2) : Inv init c2 := by
  obtain ⟨hA, hB, hC, hD, hE, hF, hG, hH⟩ := hInv
  cases hs with
  | beginInit n ht hg =>
    obtain ⟨hst, hruns, hall⟩ := hA hg
    refine ⟨fun h2 => by simp at h2, ?_, fun h2 => by simp at h2,
      fun h2 => by simp at h2, fun i h2 => rfl, fun i h2 => ?_,
      fun i v h2 => ?_, fun i e h2 => ?_⟩
    · intro _
      refine ⟨by simp [hruns], by simp [hst], n, ?_, ?_⟩
      · simp only
        exact List.getElem?_set_self (lookup_lt ht)
      · intro i t h2 hin
        rcases set_lookup h2 with ⟨he, _⟩ | ⟨_, h3⟩
        · exact absurd he hin
        · exact hall i t h3
    · rcases set_lookup h2 with ⟨_, he⟩ | ⟨_, h3⟩
      · exact absurd he.symm (by simp)
      · exact absurd (hall i _ h3) (by simp)
    · rcases set_lookup h2 with ⟨_, he⟩ | ⟨_, h3⟩
      · exact absurd he.symm (by simp)
      · exact absurd (hall i _ h3) (by simp)
    · rcases set_lookup h2 with ⟨_, he⟩ | ⟨_, h3⟩
      · exact absurd he.symm (by simp)
      · exact absurd (hall i _ h3) (by simp)
  | initOk n v ht hv =>
    have hrun := hE n ht
    obtain ⟨hruns, hst, k, hk, hothers⟩ := hB hrun
    have hnk : n = k := by
      by_contra hne
      exact absurd (hothers n _ ht hne) (by simp)
    refine ⟨fun h2 => by simp at h2, fun h2 => by simp at h2,
      fun _ => ⟨by simp [hruns], v, hv, by simp⟩,
      fun h2 => by simp at h2, fun i h2 => ?_, fun i h2 => rfl,
      fun i w h2 => ?_, fun i e h2 => ?_⟩
    · rcases set_lookup h2 with ⟨_, he⟩ | ⟨hne, h3⟩
      · exact absurd he.symm (by simp)
      · exact absurd (hothers i _ h3 (hnk ▸ hne)) (by simp)
    · rcases set_lookup h2 with ⟨_, he⟩ | ⟨hne, h3⟩
      · exact absurd he.symm (by simp)
      · exact absurd (hothers i _ h3 (hnk ▸ hne)) (by simp)
    · rcases set_lookup h2 with ⟨_, he⟩ | ⟨hne, h3⟩
      · exact absurd he.symm (by simp)
      · exact absurd (hothers i _ h3 (hnk ▸ hne)) (by simp)
  | initPanic n ht hv =>
    have hrun := hE n ht
    obtain ⟨hruns, hst, k, hk, hothers⟩ := hB hrun
    have hnk : n = k := by
      by_contra hne
      exact absurd (hothers n _ ht hne) (by simp)
    refine ⟨fun h2 => by simp at h2, fun h2 => by simp at h2,
      fun h2 => by simp at h2,
      fun _ => ⟨by simp [hruns], hv, by simp [hst]⟩,
      fun i h2 => ?_, fun i h2 => ?_, fun i w h2 => ?_, fun i e h2 => ?_⟩
    · rcases set_lookup h2 with ⟨_, he⟩ | ⟨hne, h3⟩
      · exact absurd he.symm (by simp)
      · exact absurd (hothers i _ h3 (hnk ▸ hne)) (by simp)
    · rcases set_lookup h2 with ⟨_, he⟩ | ⟨hne, h3⟩
      · exact absurd he.symm (by simp)
      · exact absurd (hothers i _ h3 (hnk ▸ hne)) (by simp)
    · rcases set_lookup h2 with ⟨_, he⟩ | ⟨hne, h3⟩
      · exact absurd he.symm (by simp)
      · exact absurd (hothers i _ h3 (hnk ▸ hne)) (by simp)
    · rcases set_lookup h2 with ⟨he, he2⟩ | ⟨hne, h3⟩
      · exact ⟨Or.inl (TState.panicked.inj he2), hv⟩
      · exact absurd (hothers i _ h3 (hnk ▸ hne)) (by simp)
  | fastPath n ht hg =>
    obtain ⟨hruns, v, hv, hst⟩ := hC hg
    refine ⟨fun h2 => by rw [hg] at h2; simp at h2,
      fun h2 => by rw [hg] at h2; simp at h2,
      fun _ => ⟨hruns, v, hv, hst⟩,
      fun h2 => by rw [hg] at h2; simp at h2,
      fun i h2 => ?_, fun i h2 => hg, fun i w h2 => ?_, fun i e h2 => ?_⟩
    · rcases set_lookup h2 with ⟨_, he⟩ | ⟨_, h3⟩
      · exact absurd he.symm (by simp)
      · exact absurd (hg ▸ hE i h3) (by simp)
    · rcases set_lookup h2 with ⟨_, he⟩ | ⟨_, h3⟩
      · exact absurd he.symm (by simp)
      · exact ⟨(hG i w h3).1, hg⟩
    · rcases set_lookup h2 with ⟨_, he⟩ | ⟨_, h3⟩
      · exact absurd he.symm (by simp)
      · exact hH i e h3
  | poisonedEntry n ht hg =>
    obtain ⟨hruns, hv, hst⟩ := hD hg
    refine ⟨fun h2 => by rw [hg] at h2; simp at h2,
      fun h2 => by rw [hg] at h2; simp at h2,
      fun h2 => by rw [hg] at h2; simp at h2,
      fun _ => ⟨hruns, hv, hst⟩,
      fun i h2 => ?_, fun i h2 => ?_, fun i w h2 => ?_, fun i e h2 => ?_⟩
    · rcases set_lookup h2 with ⟨_, he⟩ | ⟨_, h3⟩
      · exact absurd he.symm (by simp)
      · exact absurd (hg ▸ hE i h3) (by simp)
    · rcases set_lookup h2 with ⟨_, he⟩ | ⟨_, h3⟩
      · exact absurd he.symm (by simp)
      · exact absurd (hg ▸ hF i h3) (by simp)
    · rcases set_lookup h2 with ⟨_, he⟩ | ⟨_, h3⟩
      · exact absurd he.symm (by simp)
      · exact absurd (hg ▸ (hG i w h3).2) (by simp)
    · rcases set_lookup h2 with ⟨_, he⟩ | ⟨_, h3⟩
      · exact ⟨Or.inr (TState.panicked.inj he), hv⟩
      · exact hH i e h3
  | readOk n v ht hsv =>
    have hgd := hF n ht
    obtain ⟨hruns, w, hw, hst⟩ := hC hgd
    have hvw : v = w := by
      rw [hsv] at hst
      exact Option.some.inj hst.symm |>.symm
    refine ⟨fun h2 => by rw [hgd] at h2; simp at h2,
      fun h2 => by rw [hgd] at h2; simp at h2,
      fun _ => ⟨hruns, w, hw, hst⟩,
      fun h2 => by rw [hgd] at h2; simp at h2,
      fun i h2 => ?_, fun i h2 => hgd, fun i u h2 => ?_, fun i e h2 => ?_⟩
    · rcases set_lookup h2 with ⟨_, he⟩ | ⟨_, h3⟩
      · exact absurd he.symm (by simp)
      · exact absurd (hgd ▸ hE i h3) (by simp)
    · rcases set_lookup h2 with ⟨_, he⟩ | ⟨_, h3⟩
      · have hu : u = v := by simpa using he
        exact ⟨by rw [hu, hvw, hw], hgd⟩
      · exact hG i u h3
    · rcases set_lookup h2 with ⟨_, he⟩ | ⟨_, h3⟩
      · exact absurd he.symm (by simp)
      · exact hH i e h3
  | readNone n ht hsn =>
    have hgd := hF n ht
    obtain ⟨hruns, w, hw, hst⟩ := hC hgd
    rw [hsn] at hst
    exact absurd hst (by simp)

/-- The invariant holds in every reachable configuration. -/
theorem reach_inv {T : Type} {init : Option T} {n : Nat} {c : Cfg T}
    (h : Reach init n c) : Inv init c := by
  induction h with
  | refl => exact inv_init init n
  | tail _ hstep ih => exact inv_step ih hstep

/-- A concrete two-thread run stopped right after initialization: thread
zero won the race, initialized the cell with 7 and is about to read. -/
theorem reach_demo_mid :
    Reach (some 7) 2
      (⟨some 7, Gate.done, 1,
        [TState.reading, TState.start]⟩ : Cfg Nat) := by
  have h1 : Step (some 7) (initCfg Nat 2)
      (⟨none, Gate.running, 1,
        [TState.initializing, TState.start]⟩ : Cfg Nat) :=
    Step.beginInit (initCfg Nat 2) 0 rfl rfl
  have h2 : Step (some 7)
      (⟨none, Gate.running, 1,
        [TState.initializing, TState.start]⟩ : Cfg Nat)
      (⟨some 7, Gate.done, 1, [TState.reading, TState.start]⟩ : Cfg Nat) :=
    Step.initOk _ 0 7 rfl rfl
  exact Relation.ReflTransGen.tail (Relation.ReflTransGen.single h1) h2

/-- A concrete completed two-thread run: thread zero initialized the cell
with 7, thread one took the fast path, both finished with the value 7. -/
theorem reach_demo_done :
    Reach (some 7) 2
      (⟨some 7, Gate.done, 1,
        [TState.finished 7, TState.finished 7]⟩ : Cfg Nat) := by
  have h3 : Step (some 7)
      (⟨some 7, Gate.done, 1, [TState.reading, TState.start]⟩ : Cfg Nat)
      (⟨some 7, Gate.done, 1, [TState.reading, TState.reading]⟩ : Cfg Nat) :=
    Step.fastPath _ 1 rfl rfl
  have h4 : Step (some 7)
      (⟨some 7, Gate.done, 1, [TState.reading, TState.reading]⟩ : Cfg Nat)
      (⟨some 7, Gate.done, 1,
        [TState.finished 7, TState.reading]⟩ : Cfg Nat) :=
    Step.readOk _ 0 7 rfl rfl
  have h5 : Step (some 7)
      (⟨some 7, Gate.done, 1, [TState.finished 7, TState.reading]⟩ : Cfg Nat)
      (⟨some 7, Gate.done, 1,
        [TState.finished 7, TState.finished 7]⟩ : Cfg Nat) :=
    Step.readOk _ 1 7 rfl rfl
  exact Relation.ReflTransGen.tail
    (Relation.ReflTransGen.tail
      (Relation.ReflTransGen.tail reach_demo_mid h3) h4) h5

/-- C1: for any number of concurrent first-time callers, the initializer
runs at most once in every reachable configuration, any two finished
callers observed the identical value, and a finished caller observed
exactly the initializer result with the run count equal to one. -/
theorem init_exactly_once_all_agree {T : Type} (init : Option T) (n : Nat)
    (c : Cfg T) (h : Reach init n c) :
    c.initRuns ≤ 1 ∧
    (∀ (i j : Nat) (v w : T), c.threads[i]? = some (TState.finished v) →
      c.threads[j]? = some (TState.finished w) → v = w) ∧
    (∀ (i : Nat) (v : T), c.threads[i]? = some (TState.finished v) →
      init = some v ∧ c.initRuns = 1) := by
  obtain ⟨hA, hB, hC, hD, hE, hF, hG, hH⟩ := reach_inv h
  refine ⟨?_, ?_, ?_⟩
  · cases hg : c.gate with
    | notStarted => have := (hA hg).2.1; omega
    | running => have := (hB hg).1; omega
    | done => have := (hC hg).1; omega
    | poisoned => have := (hD hg).1; omega
  · intro i j v w hi hj
    have h1 := (hG i v hi).1
    have h2 := (hG j w hj).1
    rw [h1] at h2
    exact Option.some.inj h2
  · intro i v hi
    have h1 := hG i v hi
    exact ⟨h1.1, (hC h1.2).1⟩

/-- Witness for C1 at a concrete completed two-thread run. -/
theorem init_exactly_once_all_agree_witness :
    (⟨some 7, Gate.done, 1,
      [TState.finished 7, TState.finished 7]⟩ : Cfg Nat).initRuns ≤ 1 ∧
    (7 : Nat) = 7 ∧
    ((some 7 : Option Nat) = some 7 ∧
      (⟨some 7, Gate.done, 1,
        [TState.finished 7, TState.finished 7]⟩ : Cfg Nat).initRuns = 1) := by
  have h := init_exactly_once_all_agree (some 7) 2 _ reach_demo_done
  exact ⟨h.1, h.2.1 0 1 7 7 rfl rfl, h.2.2 0 7 rfl⟩

/-- C2: in a reachable configuration with a done gate the slot holds a
value, and every further step keeps the gate done and the slot unchanged
(done is terminal, the value immutable). -/
theorem done_terminal_storage_frozen {T : Type} (init : Option T)
    (n : Nat) (c c2 : Cfg T) (h : Reach init n c)
    (hg : c.gate = Gate.done) (hs : Step init c c2) :
    (∃ v, c.storage = some v) ∧ c2.gate = Gate.done ∧
    c2.storage = c.storage := by
  obtain ⟨hA, hB, hC, hD, hE, hF, hG, hH⟩ := reach_inv h
  obtain ⟨hruns, v, hv, hst⟩ := hC hg
  refine ⟨⟨v, hst⟩, ?_⟩
  cases hs with
  | beginInit n2 ht hg2 => rw [hg] at hg2; exact Gate.noConfusion hg2
  | initOk n2 v2 ht hv2 =>
    have h2 := hE n2 ht
    rw [hg] at h2
    exact Gate.noConfusion h2
  | initPanic n2 ht hv2 =>
    have h2 := hE n2 ht
    rw [hg] at h2
    exact Gate.noConfusion h2
  | fastPath n2 ht hg2 => exact ⟨hg, rfl⟩
  | poisonedEntry n2 ht hg2 => rw [hg] at hg2; exact Gate.noConfusion hg2
  | readOk n2 v2 ht hs2 => exact ⟨hg, rfl⟩
  | readNone n2 ht hs2 => exact ⟨hg, rfl⟩

/-- Witness for C2: a fast-path step from a concrete done configuration. -/
theorem done_terminal_storage_frozen_witness :
    (∃ v, (⟨some 7, Gate.done, 1,
      [TState.reading, TState.start]⟩ : Cfg Nat).storage = some v) ∧
    (⟨some 7, Gate.done, 1,
      [TState.reading, TState.reading]⟩ : Cfg Nat).gate = Gate.done ∧
    (⟨some 7, Gate.done, 1,
      [TState.reading, TState.reading]⟩ : Cfg Nat).storage =
      (⟨some 7, Gate.done, 1,
        [TState.reading, TState.start]⟩ : Cfg Nat).storage :=
  done_terminal_storage_frozen (some 7) 2 _ _ reach_demo_mid rfl
    (Step.fastPath _ 1 rfl rfl)

/-- C3: a deref of an initialized cell returns the stored value, leaves
slot, gate and initializer-run count unchanged (appending only the trace
line), and a further deref returns the same value again. -/
theorem deref_after_init_idempotent {T : Type} (init : Option T) (v : T)
    (ir : Nat) (out : List String) :
    (deref init (⟨some v, Gate.done, ir, out⟩ : LazyState T)).2 =
      Except.ok v ∧
    (deref init (⟨some v, Gate.done, ir, out⟩ : LazyState T)).1 =
      (⟨some v, Gate.done, ir, out ++ [DEREF_LINE]⟩ : LazyState T) ∧
    (deref init
      (deref init (⟨some v, Gate.done, ir, out⟩ : LazyState T)).1).2 =
      Except.ok v :=
  ⟨rfl, rfl, rfl⟩

/-- C4: with an always-failing initializer, the first deref of a fresh
cell propagates the failure, leaves the gate poisoned (not done) after
exactly one initializer run; a second deref fails again without a new
run; and in the concurrent model no caller ever finishes with a value
while the run count stays at most one. -/
theorem failing_init_poisons_all (T : Type) :
    (deref (none : Option T) (freshState T)).2 =
      Except.error DerefErr.initFailure ∧
    ¬ (deref (none : Option T) (freshState T)).1.gate = Gate.done ∧
    (deref (none : Option T) (freshState T)).1.gate = Gate.poisoned ∧
    (deref (none : Option T) (freshState T)).1.initRuns = 1 ∧
    (deref (none : Option T)
      (deref (none : Option T) (freshState T)).1).2 =
      Except.error DerefErr.poisonedGate ∧
    (deref (none : Option T)
      (deref (none : Option T) (freshState T)).1).1.initRuns = 1 ∧
    ∀ (n : Nat) (c : Cfg T), Reach (none : Option T) n c →
      c.initRuns ≤ 1 ∧
      ∀ (i : Nat) (v : T), ¬ c.threads[i]? = some (TState.finished v) := by
  refine ⟨rfl, ?_, rfl, rfl, rfl, rfl, ?_⟩
  · exact fun h2 => Gate.noConfusion h2
  · intro n c h2
    obtain ⟨hA, hB, hC, hD, hE, hF, hG, hH⟩ := reach_inv h2
    refine ⟨?_, ?_⟩
    · cases hg : c.gate with
      | notStarted => have := (hA hg).2.1; omega
      | running => have := (hB hg).1; omega
      | done => have := (hC hg).1; omega
      | poisoned => have := (hD hg).1; omega
    · intro i v hi
      exact Option.noConfusion (hG i v hi).1

/-- Witness for C4 at the unit type, applying the reachable part to the
initial one-thread configuration. -/
theorem failing_init_poisons_all_witness :
    (deref (none : Option Unit) (freshState Unit)).2 =
      Except.error DerefErr.initFailure ∧
    (deref (none : Option Unit) (freshState Unit)).1.gate =
      Gate.poisoned ∧
    (initCfg Unit 1).initRuns ≤ 1 ∧
    ¬ (initCfg Unit 1).threads[0]? =
      some (TState.finished ()) := by
  have h := failing_init_poisons_all Unit
  have h7 := h.2.2.2.2.2.2 1 (initCfg Unit 1) Relation.ReflTransGen.refl
  exact ⟨h.1, h.2.2.1, h7.1, h7.2 0 ()⟩

/-- C5: a deref finding the slot empty while the gate is done fails with
the diagnostic panic message; and in every reachable configuration a done
gate comes with a populated slot, so no caller ever panics with the
invariant-violation diagnostic. -/
theorem done_empty_slot_is_fatal {T : Type} (init : Option T) (n : Nat)
    (c : Cfg T) (ir : Nat) (out : List String) (h : Reach init n c) :
    (deref init (⟨none, Gate.done, ir, out⟩ : LazyState T)).2 =
      Except.error (DerefErr.invariantViolation INVARIANT_MSG) ∧
    (c.gate = Gate.done → ∃ v, c.storage = some v) ∧
    ∀ (i : Nat) (msg : String),
      ¬ c.threads[i]? =
        some (TState.panicked (DerefErr.invariantViolation msg)) := by
  obtain ⟨hA, hB, hC, hD, hE, hF, hG, hH⟩ := reach_inv h
  refine ⟨rfl, ?_, ?_⟩
  · intro hg
    obtain ⟨_, v, _, hst⟩ := hC hg
    exact ⟨v, hst⟩
  · intro i msg hp
    rcases (hH i _ hp).1 with he | he <;> exact DerefErr.noConfusion he

/-- Witness for C5 at a concrete done configuration and a concrete
corrupted sequential state. -/
theorem done_empty_slot_is_fatal_witness :
    (deref (some 7) (⟨none, Gate.done, 0, []⟩ : LazyState Nat)).2 =
      Except.error (DerefErr.invariantViolation INVARIANT_MSG) ∧
    (∃ v, (⟨some 7, Gate.done, 1,
      [TState.finished 7, TState.finished 7]⟩ : Cfg Nat).storage =
        some v) ∧
    ¬ (⟨some 7, Gate.done, 1,
      [TState.finished 7, TState.finished 7]⟩ : Cfg Nat).threads[0]? =
      some (TState.panicked
        (DerefErr.invariantViolation INVARIANT_MSG)) := by
  have h := done_empty_slot_is_fatal (some 7) 2 _ 0 [] reach_demo_done
  exact ⟨h.1, h.2.1 rfl, h.2.2 0 INVARIANT_MSG⟩

/-- C6: the main program scenario: the first deref compiles LONG_REGEX
and is_match accepts the test email, the second deref reuses the value
and is_match rejects the non-email, and after both calls the initializer
has run exactly once (no recompilation). -/
theorem main_email_scenario :
    mainFirstMatch = Except.ok true ∧
    mainSecondMatch = Except.ok false ∧
    mainState1.initRuns = 1 ∧
    mainState2.initRuns = 1 :=
  ⟨rfl, rfl, rfl, rfl⟩

/-- C7 counterexample: the second deref performed by main does add
observable output (the deref trace line), so a dereference after
initialization is not free of observable effects. -/
theorem post_init_deref_prints :
    ¬ (deref regexInit mainState1).1.output = mainState1.output := by
  intro h
  have hlen := congrArg List.length h
  rw [show (deref regexInit mainState1).1.output =
    mainState1.output ++ [DEREF_LINE] from rfl] at hlen
  simp at hlen

/-- C7 amended: accessing the cell has no side effects beyond the
one-time initializer's own effects and one trace line printed by every
deref: the first deref of a fresh cell prints the trace line and the
initializer line, and any deref of an initialized cell appends exactly
the trace line while leaving slot, gate and run count unchanged. -/
theorem post_init_deref_only_trace {T : Type} (init : Option T) (v : T)
    (ir : Nat) (out : List String) :
    (deref (some v) (freshState T)).1.output = [DEREF_LINE, INIT_LINE] ∧
    (deref init (⟨some v, Gate.done, ir, out⟩ : LazyState T)).1.output =
      out ++ [DEREF_LINE] ∧
    (deref init (⟨some v, Gate.done, ir, out⟩ : LazyState T)).1.storage =
      some v ∧
    (deref init (⟨some v, Gate.done, ir, out⟩ : LazyState T)).1.gate =
      Gate.done ∧
    (deref init (⟨some v, Gate.done, ir, out⟩ : LazyState T)).1.initRuns =
      ir :=
  ⟨rfl, rfl, rfl, rfl, rfl⟩

/-- C8: any reachable configuration whose gate reads done holds the
complete initializer result in the slot, and every caller that finished
observed exactly that value — the observable content of the
release/acquire ordering contract, under the interleaving (sequentially
consistent) semantics of the model. -/
theorem done_read_sees_full_value {T : Type} (init : Option T) (n : Nat)
    (c : Cfg T) (h : Reach init n c) (hg : c.gate = Gate.done) :
    ∃ v, init = some v ∧ c.storage = some v ∧
      ∀ (i : Nat) (w : T), c.threads[i]? = some (TState.finished w) →
        w = v := by
  obtain ⟨hA, hB, hC, hD, hE, hF, hG, hH⟩ := reach_inv h
  obtain ⟨hruns, v, hv, hst⟩ := hC hg
  refine ⟨v, hv, hst, ?_⟩
  intro i w hw
  have h2 := (hG i w hw).1
  rw [hv] at h2
  exact (Option.some.inj h2).symm

/-- Witness for C8 at a concrete completed two-thread run. -/
theorem done_read_sees_full_value_witness :
    ∃ v, (some 7 : Option Nat) = some v ∧
      (⟨some 7, Gate.done, 1,
        [TState.finished 7, TState.finished 7]⟩ : Cfg Nat).storage =
        some v ∧
      ∀ (i : Nat) (w : Nat),
        (⟨some 7, Gate.done, 1,
          [TState.finished 7, TState.finished 7]⟩ : Cfg Nat).threads[i]? =
          some (TState.finished w) → w = v :=
  done_read_sees_full_value (some 7) 2 _ reach_demo_done rfl

/-- C9: the four lazy-initialization strategies over LONG_REGEX (the
lazy_static cell, the once_cell lazy value, the external-module cell and
the inner-module cell) return the same boolean on every input string. -/
theorem four_strategies_agree (s : String) :
    ∃ b : Bool, compiledRegexMatch s = Except.ok b ∧
      onceCellMatch s = Except.ok b ∧
      lazyStaticExternal s = Except.ok b ∧
      lazyStaticLocal s = Except.ok b :=
  ⟨regexValue.isMatch s, rfl, rfl, rfl, rfl⟩

/-- C10: LONG_REGEX is a valid pattern, so the initializer of the main
program succeeds (the unwrap never panics), and in every configuration
reachable with this initializer the gate is never poisoned and no caller
panics with an initialization failure. -/
theorem long_regex_compiles_no_poison (n : Nat) (c : Cfg Regex)
    (h : Reach regexInit n c) :
    (compile LONG_REGEX).isSome = true ∧
    (deref regexInit (freshState Regex)).2 = Except.ok regexValue ∧
    ¬ c.gate = Gate.poisoned ∧
    ∀ (i : Nat),
      ¬ c.threads[i]? = some (TState.panicked DerefErr.initFailure) := by
  obtain ⟨hA, hB, hC, hD, hE, hF, hG, hH⟩ := reach_inv h
  refine ⟨rfl, rfl, ?_, ?_⟩
  · intro hg
    have h2 := (hD hg).2.1
    exact absurd h2 (by decide)
  · intro i hp
    have h2 := (hH i _ hp).2
    exact absurd h2 (by decide)

/-- Witness for C10 at the initial one-thread configuration. -/
theorem long_regex_compiles_no_poison_witness :
    (compile LONG_REGEX).isSome = true ∧
    (deref regexInit (freshState Regex)).2 = Except.ok regexValue ∧
    ¬ (initCfg Regex 1).gate = Gate.poisoned ∧
    ¬ (initCfg Regex 1).threads[0]? =
      some (TState.panicked DerefErr.initFailure) := by
  have h := long_regex_compiles_no_poison 1 (initCfg Regex 1)
    Relation.ReflTransGen.refl
  exact ⟨h.1, h.2.1, h.2.2.1, h.2.2.2 0⟩

end Spec2Proof
